import Mathlib

/-!
Verification of the token lifecycle of the password-protect package.

The server side is the API route template (the `POST` handler): an
in-memory `tokenStore` mapping SHA-256 hex digests of issued tokens to
`{ expiresAt, createdAt }` records, a periodic sweep removing expired
records, token issuance on correct password, and token verification with
sliding expiry.  The client side is the `authenticate` function of the
context provider in its local-secret mode.

Conventions of the embedding:
- A JS `Map<string, T>` is a `List (String × T)` with unique keys;
  `mapGet` returns the entry with the given key, `mapSet` replaces it in
  place (or appends), `mapDelete` removes it.  JS guarantees at most one
  entry per key, so removing every entry with the key is the same
  operation as `Map.delete`.
- Epoch milliseconds (`Date.now()`) are a `Nat` parameter `now`; the
  handler reads the clock several times in one request, which the
  embedding collapses into a single instant.
- `randomBytes(32)` is a `List Nat` parameter (each entry a byte);
  `Buffer.toString` with the hex argument is `bytesToHex`.
- SHA-256 comes from the Node crypto library, outside this repository,
  so the handler is parameterized over `createTokenHash : String → String`.
- JS truthiness of an optional string field (`if (token)`,
  `if (!password)`) is `truthy`: present and non-empty.
-/

/-- A value of the token store: `{ expiresAt: number, createdAt: number }`. -/
structure TokenRecord where
  expiresAt : Nat
  createdAt : Nat
deriving Repr, DecidableEq

/-- The in-memory token store, a `Map` from token-hash to record. -/
abbrev Store := List (String × TokenRecord)

/-- JS truthiness of a destructured optional string field: the field is
present and is not the empty string. -/
def truthy : Option String → Bool
  | none => false
  | some s => !s.isEmpty

/-- `Map.get`: the value stored under `k`, if any. -/
def mapGet (k : String) : Store → Option TokenRecord
  | [] => none
  | (k1, v1) :: rest => if k1 = k then some v1 else mapGet k rest

/-- `Map.set`: replace the entry with key `k` in place, else append. -/
def mapSet (k : String) (v : TokenRecord) : Store → Store
  | [] => [(k, v)]
  | (k1, v1) :: rest => if k1 = k then (k, v) :: rest else (k1, v1) :: mapSet k v rest

/-- `Map.delete`: remove the entry with key `k` (keys are unique in a
`Map`, so removing every entry with key `k` is the same operation). -/
def mapDelete (k : String) : Store → Store
  | [] => []
  | (k1, v1) :: rest => if k1 = k then mapDelete k rest else (k1, v1) :: mapDelete k rest

/-- The `setInterval` sweep body: iterate over the entries and delete
every record whose `expiresAt` is in the past. -/
def sweep (now : Nat) : Store → Store
  | [] => []
  | (k, v) :: rest => if v.expiresAt < now then sweep now rest else (k, v) :: sweep now rest

/-- Lowercase hex digit for a value below 16, as produced by
`Buffer.toString` with the hex encoding. -/
def hexDigit (n : Nat) : Char :=
  if n < 10 then Char.ofNat (48 + n) else Char.ofNat (87 + n)

/-- Hex encoding of one byte: two lowercase hex digits. -/
def byteToHex (b : Nat) : String :=
  String.mk [hexDigit (b / 16), hexDigit (b % 16)]

/-- Hex encoding of a byte sequence (`Buffer.toString` with hex). -/
def bytesToHex : List Nat → String
  | [] => ""
  | b :: bs => byteToHex b ++ bytesToHex bs

/-- `generateToken`: `randomBytes(32).toString` hex-encoded; the random
bytes are the `rand` parameter. -/
def generateToken (rand : List Nat) : String :=
  bytesToHex rand

/-- Recognizer for lowercase hex characters. -/
def isHexDigit (c : Char) : Bool :=
  "0123456789abcdef".toList.contains c

/-- The parsed JSON request body `{ password?, token? }`. -/
structure RequestBody where
  password : Option String
  token : Option String
deriving Repr, DecidableEq

/-- The JSON response envelope together with the HTTP status code.
Fields absent from a given `NextResponse.json` literal are `none`. -/
structure ApiResponse where
  success : Bool
  token : Option String
  valid : Option Bool
  error : Option String
  status : Nat
deriving Repr, DecidableEq

/-- `process.env.APP_PASSWORD || 'demo123'`: the configured secret, with
the fallback default when the variable is unset or empty (JS `||` tests
truthiness, so an empty-string variable also falls back). -/
def envPassword (env : Option String) : String :=
  match env with
  | none => "demo123"
  | some s => if s.isEmpty then "demo123" else s

/-- Twenty-four hours in milliseconds (`24 * 60 * 60 * 1000`). -/
def expiresIn : Nat := 24 * 60 * 60 * 1000

/-- The `POST` handler of the API route, acting on the token store.
`createTokenHash` is the SHA-256 hex digest (external primitive), `env`
is `process.env.APP_PASSWORD`, `rand` the bytes `randomBytes(32)` would
return, `now` the clock.  Returns the response and the store after the
request. -/
def POST (createTokenHash : String → String) (env : Option String)
    (rand : List Nat) (now : Nat) (store : Store) (body : RequestBody) :
    ApiResponse × Store :=
  if truthy body.token then
    let tokenHash := createTokenHash (body.token.getD "")
    match mapGet tokenHash store with
    | none =>
      ({ success := false, token := none, valid := none,
         error := some "Invalid token", status := 401 }, store)
    | some tokenData =>
      if tokenData.expiresAt < now then
        ({ success := false, token := none, valid := none,
           error := some "Token expired", status := 401 },
         mapDelete tokenHash store)
      else
        ({ success := true, token := none, valid := some true,
           error := none, status := 200 },
         mapSet tokenHash { tokenData with expiresAt := now + expiresIn } store)
  else if !truthy body.password then
    ({ success := false, token := none, valid := none,
       error := some "Password is required", status := 400 }, store)
  else if body.password.getD "" ≠ envPassword env then
    ({ success := false, token := none, valid := none,
       error := some "Incorrect password", status := 401 }, store)
  else
    let tok := generateToken rand
    let tokenHash := createTokenHash tok
    ({ success := true, token := some tok, valid := none,
       error := none, status := 200 },
     mapSet tokenHash { expiresAt := now + expiresIn, createdAt := now } store)

/-- Client-side session state relevant to `authenticate`: the value
persisted under the storage key, the `isAuthenticated` flag, and how
often each optional callback has fired. -/
structure ClientState where
  storage : Option String
  isAuthenticated : Bool
  successCalls : Nat
  errorCalls : Nat
deriving Repr, DecidableEq

/-- The local-secret branch of the provider function `authenticate`
(taken when `config.password` is truthy, with `window` defined): compare
the submitted password to the configured secret; on match persist the
sentinel when `persistAuth` is on, set `isAuthenticated`, fire
`onSuccess`, return `true`; otherwise fire `onError` and return
`false`. -/
def authenticateLocal (configPassword : String) (persistAuth : Bool)
    (password : String) (s : ClientState) : Bool × ClientState :=
  if password = configPassword then
    (true,
     { storage := if persistAuth then some "authenticated" else s.storage,
       isAuthenticated := true,
       successCalls := s.successCalls + 1,
       errorCalls := s.errorCalls })
  else
    (false, { s with errorCalls := s.errorCalls + 1 })

/-- A concrete stand-in hash used only to instantiate witness and
counterexample statements at a concrete input. -/
def demoHash (s : String) : String :=
  String.append "sha256:" s

/-- The key invariant of the store (claim C5): every key is the digest of
some previously issued plaintext token; the plaintext itself never
appears as a key. -/
def storeKeysIssued (createTokenHash : String → String) (issued : List String)
    (store : Store) : Prop :=
  ∀ k d, (k, d) ∈ store → ∃ t, t ∈ issued ∧ k = createTokenHash t

theorem string_length_append : ∀ a b : String, (a ++ b).length = a.length + b.length
  | ⟨la⟩, ⟨lb⟩ => List.length_append la lb

theorem string_toList_append : ∀ a b : String, (a ++ b).toList = a.toList ++ b.toList
  | ⟨_⟩, ⟨_⟩ => rfl

theorem mapGet_mapSet_self (k : String) (v : TokenRecord) (s : Store) :
    mapGet k (mapSet k v s) = some v := by
  induction s with
  | nil => simp [mapSet, mapGet]
  | cons e rest ih =>
    obtain ⟨k1, v1⟩ := e
    by_cases h : k1 = k
    · simp [mapSet, h, mapGet]
    · simp [mapSet, h, mapGet, ih]

theorem mapGet_mapSet_ne (k k' : String) (v : TokenRecord) (s : Store)
    (h : k' ≠ k) : mapGet k' (mapSet k v s) = mapGet k' s := by
  have hks : ¬ k = k' := fun he => h he.symm
  induction s with
  | nil => simp [mapSet, mapGet, hks]
  | cons e rest ih =>
    obtain ⟨k1, v1⟩ := e
    by_cases h1 : k1 = k
    · subst h1
      simp [mapSet, mapGet, hks]
    · simp [mapSet, h1, mapGet, ih]

theorem mapGet_mapDelete_self (k : String) (s : Store) :
    mapGet k (mapDelete k s) = none := by
  induction s with
  | nil => rfl
  | cons e rest ih =>
    obtain ⟨k1, v1⟩ := e
    by_cases h : k1 = k
    · simpa [mapDelete, h] using ih
    · simpa [mapDelete, h, mapGet] using ih

theorem mapGet_mapDelete_ne (k k' : String) (s : Store) (h : k' ≠ k) :
    mapGet k' (mapDelete k s) = mapGet k' s := by
  induction s with
  | nil => rfl
  | cons e rest ih =>
    obtain ⟨k1, v1⟩ := e
    by_cases h1 : k1 = k
    · subst h1
      have hks : ¬ k1 = k' := fun he => h he.symm
      simpa [mapDelete, mapGet, hks] using ih
    · by_cases h2 : k1 = k'
      · simp [mapDelete, h1, mapGet, h2, h]
      · simpa [mapDelete, h1, mapGet, h2] using ih

theorem mapGet_mem (k : String) (v : TokenRecord) (s : Store)
    (h : mapGet k s = some v) : (k, v) ∈ s := by
  induction s with
  | nil => simp [mapGet] at h
  | cons e rest ih =>
    obtain ⟨k1, v1⟩ := e
    by_cases h1 : k1 = k
    · subst h1
      simp [mapGet] at h
      simp [h]
    · simp [mapGet, h1] at h
      exact List.mem_cons_of_mem _ (ih h)

theorem mem_mapSet (k : String) (v : TokenRecord) (s : Store)
    (e : String × TokenRecord) (h : e ∈ mapSet k v s) : e = (k, v) ∨ e ∈ s := by
  induction s with
  | nil => simpa [mapSet] using h
  | cons e1 rest ih =>
    obtain ⟨k1, v1⟩ := e1
    by_cases h1 : k1 = k
    · simp [mapSet, h1] at h
      rcases h with h | h
      · exact Or.inl (by simp [h])
      · exact Or.inr (List.mem_cons_of_mem _ h)
    · simp [mapSet, h1] at h
      rcases h with h | h
      · exact Or.inr (by simp [h])
      · rcases ih h with h2 | h2
        · exact Or.inl h2
        · exact Or.inr (List.mem_cons_of_mem _ h2)

theorem mem_mapDelete (k : String) (s : Store) (e : String × TokenRecord)
    (h : e ∈ mapDelete k s) : e ∈ s := by
  induction s with
  | nil => simp [mapDelete] at h
  | cons e1 rest ih =>
    obtain ⟨k1, v1⟩ := e1
    by_cases h1 : k1 = k
    · simp [mapDelete, h1] at h
      exact List.mem_cons_of_mem _ (ih h)
    · simp [mapDelete, h1] at h
      rcases h with h | h
      · simp [h]
      · exact List.mem_cons_of_mem _ (ih h)

theorem mem_sweep (now : Nat) (s : Store) (e : String × TokenRecord) :
    e ∈ sweep now s ↔ e ∈ s ∧ now ≤ e.2.expiresAt := by
  induction s with
  | nil => simp [sweep]
  | cons e1 rest ih =>
    obtain ⟨k1, v1⟩ := e1
    by_cases h : v1.expiresAt < now
    · rw [show sweep now ((k1, v1) :: rest) = sweep now rest by simp [sweep, h], ih]
      constructor
      · rintro ⟨hm, hle⟩
        exact ⟨List.mem_cons_of_mem _ hm, hle⟩
      · rintro ⟨hm, hle⟩
        rcases List.mem_cons.mp hm with rfl | hm2
        · exact absurd hle (by simpa using h)
        · exact ⟨hm2, hle⟩
    · rw [show sweep now ((k1, v1) :: rest) = (k1, v1) :: sweep now rest by simp [sweep, h]]
      constructor
      · intro hm
        rcases List.mem_cons.mp hm with rfl | hm2
        · exact ⟨List.mem_cons_self _ _, by simpa using Nat.le_of_not_lt h⟩
        · obtain ⟨hm3, hle⟩ := ih.mp hm2
          exact ⟨List.mem_cons_of_mem _ hm3, hle⟩
      · rintro ⟨hm, hle⟩
        rcases List.mem_cons.mp hm with rfl | hm2
        · exact List.mem_cons_self _ _
        · exact List.mem_cons_of_mem _ (ih.mpr ⟨hm2, hle⟩)

theorem sweep_length (now : Nat) (s : Store) :
    (sweep now s).length = s.countP (fun e => decide (now ≤ e.2.expiresAt)) := by
  induction s with
  | nil => rfl
  | cons e1 rest ih =>
    obtain ⟨k1, v1⟩ := e1
    by_cases h : v1.expiresAt < now
    · have hb : ¬ now ≤ v1.expiresAt := by omega
      simp [sweep, h, List.countP_cons, ih, hb]
    · have hb : now ≤ v1.expiresAt := by omega
      simp [sweep, h, List.countP_cons, ih, hb]

theorem isHexDigit_hexDigit : ∀ n < 16, isHexDigit (hexDigit n) = true := by decide

theorem bytesToHex_length (bs : List Nat) : (bytesToHex bs).length = 2 * bs.length := by
  induction bs with
  | nil => rfl
  | cons b bs ih =>
    rw [bytesToHex, string_length_append, ih]
    show 2 + 2 * bs.length = 2 * (bs.length + 1)
    omega

theorem mem_bytesToHex (bs : List Nat) (c : Char) (h : c ∈ (bytesToHex bs).toList) :
    ∃ b, b ∈ bs ∧ (c = hexDigit (b / 16) ∨ c = hexDigit (b % 16)) := by
  induction bs with
  | nil => simp [bytesToHex, String.toList] at h
  | cons b bs ih =>
    rw [bytesToHex, string_toList_append] at h
    rcases List.mem_append.mp h with h1 | h2
    · have h1' : c ∈ [hexDigit (b / 16), hexDigit (b % 16)] := h1
      simp at h1'
      exact ⟨b, List.mem_cons_self _ _, h1'⟩
    · obtain ⟨b', hb', hc⟩ := ih h2
      exact ⟨b', List.mem_cons_of_mem _ hb', hc⟩

theorem generateToken_hex (rand : List Nat) (hlen : rand.length = 32)
    (hbytes : ∀ b ∈ rand, b < 256) :
    (generateToken rand).length = 64 ∧
      ∀ c ∈ (generateToken rand).toList, isHexDigit c = true := by
  constructor
  · rw [generateToken, bytesToHex_length, hlen]
  · intro c hc
    obtain ⟨b, hb, hcase⟩ := mem_bytesToHex rand c hc
    have hb256 := hbytes b hb
    rcases hcase with rfl | rfl
    · exact isHexDigit_hexDigit _ (by omega)
    · exact isHexDigit_hexDigit _ (Nat.mod_lt _ (by omega))

theorem envPassword_ne_empty (env : Option String) : envPassword env ≠ "" := by
  cases env with
  | none => decide
  | some s =>
    simp only [envPassword]
    split
    · decide
    · rename_i h
      intro hs
      exact h (by rw [hs]; decide)

theorem truthy_some (t : String) (h : t ≠ "") : truthy (some t) = true := by
  have he : t.isEmpty = false := by
    cases hs : t.isEmpty
    · rfl
    · exact absurd ((String.isEmpty_iff t).mp hs) h
  simp [truthy, he]

/-- C1: for a request whose password equals the configured secret and with
no token field, the endpoint hex-encodes the 32 random bytes into a
64-hex-character plaintext token, inserts a record under the digest of
that token with expiresAt = now + 24h and createdAt = now, and returns
the plaintext token in a success response. -/
theorem post_correct_password_issues_token
    (createTokenHash : String → String) (env : Option String) (rand : List Nat)
    (now : Nat) (store : Store) (body : RequestBody)
    (htok : body.token = none)
    (hpw : body.password = some (envPassword env))
    (hlen : rand.length = 32) (hbytes : ∀ b ∈ rand, b < 256) :
    POST createTokenHash env rand now store body =
      ({ success := true, token := some (generateToken rand), valid := none,
         error := none, status := 200 },
       mapSet (createTokenHash (generateToken rand))
         { expiresAt := now + expiresIn, createdAt := now } store)
    ∧ (generateToken rand).length = 64
    ∧ (∀ c ∈ (generateToken rand).toList, isHexDigit c = true)
    ∧ mapGet (createTokenHash (generateToken rand))
        (POST createTokenHash env rand now store body).2 =
        some { expiresAt := now + expiresIn, createdAt := now } := by
  have htr : truthy body.token = false := by rw [htok]; rfl
  have hpt : truthy (some (envPassword env)) = true :=
    truthy_some _ (envPassword_ne_empty env)
  have hpost : POST createTokenHash env rand now store body =
      ({ success := true, token := some (generateToken rand), valid := none,
         error := none, status := 200 },
       mapSet (createTokenHash (generateToken rand))
         { expiresAt := now + expiresIn, createdAt := now } store) := by
    simp [POST, htr, hpt, hpw]
  obtain ⟨hl, hh⟩ := generateToken_hex rand hlen hbytes
  exact ⟨hpost, hl, hh, by rw [hpost]; exact mapGet_mapSet_self _ _ _⟩

theorem post_correct_password_issues_token_witness :
    POST demoHash none (List.replicate 32 0) 7 []
        { password := some "demo123", token := none } =
      ({ success := true, token := some (generateToken (List.replicate 32 0)), valid := none,
         error := none, status := 200 },
       mapSet (demoHash (generateToken (List.replicate 32 0)))
         { expiresAt := 7 + expiresIn, createdAt := 7 } []) :=
  (post_correct_password_issues_token demoHash none (List.replicate 32 0) 7 []
    { password := some "demo123", token := none } rfl rfl (by decide) (by decide)).1

/-- C2: verifying a nonempty token whose digest is present with
expiresAt at or after now returns the Valid response and, as its only
side effect, slides that record's expiresAt to now + 24h, preserving
createdAt and every other record. -/
theorem post_valid_token_refreshes
    (createTokenHash : String → String) (env : Option String) (rand : List Nat)
    (now : Nat) (store : Store) (pw : Option String) (t : String) (d : TokenRecord)
    (ht : t ≠ "")
    (hget : mapGet (createTokenHash t) store = some d)
    (hfresh : now ≤ d.expiresAt) :
    POST createTokenHash env rand now store { password := pw, token := some t } =
      ({ success := true, token := none, valid := some true, error := none, status := 200 },
       mapSet (createTokenHash t)
         { expiresAt := now + expiresIn, createdAt := d.createdAt } store)
    ∧ mapGet (createTokenHash t)
        (POST createTokenHash env rand now store { password := pw, token := some t }).2 =
        some { expiresAt := now + expiresIn, createdAt := d.createdAt }
    ∧ ∀ k, k ≠ createTokenHash t →
        mapGet k (POST createTokenHash env rand now store { password := pw, token := some t }).2 =
          mapGet k store := by
  have htr : truthy (some t) = true := truthy_some t ht
  have hnl : ¬ d.expiresAt < now := by omega
  have hpost : POST createTokenHash env rand now store { password := pw, token := some t } =
      ({ success := true, token := none, valid := some true, error := none, status := 200 },
       mapSet (createTokenHash t)
         { expiresAt := now + expiresIn, createdAt := d.createdAt } store) := by
    simp [POST, htr, hget, hnl]
  refine ⟨hpost, ?_, ?_⟩
  · rw [hpost]
    exact mapGet_mapSet_self _ _ _
  · intro k hk
    rw [hpost]
    exact mapGet_mapSet_ne _ _ _ _ hk

theorem post_valid_token_refreshes_witness :
    POST demoHash none [] 5 [(demoHash "t", ⟨10, 3⟩)]
        { password := none, token := some "t" } =
      ({ success := true, token := none, valid := some true, error := none, status := 200 },
       mapSet (demoHash "t") { expiresAt := 5 + expiresIn, createdAt := 3 }
         [(demoHash "t", ⟨10, 3⟩)]) :=
  (post_valid_token_refreshes demoHash none [] 5 [(demoHash "t", ⟨10, 3⟩)] none "t" ⟨10, 3⟩
    (by decide) (by decide) (by decide)).1

/-- C3: a submitted nonempty token whose digest is missing from the store
is rejected with the Invalid-token 401 response and the store unchanged;
one whose digest is present but expired is rejected with the
Token-expired 401 response and exactly that record is deleted, checked at
lookup time regardless of the sweep. -/
theorem post_bad_token_rejected
    (createTokenHash : String → String) (env : Option String) (rand : List Nat)
    (now : Nat) (store : Store) (pw : Option String) (t : String)
    (ht : t ≠ "") :
    (mapGet (createTokenHash t) store = none →
      POST createTokenHash env rand now store { password := pw, token := some t } =
        ({ success := false, token := none, valid := none,
           error := some "Invalid token", status := 401 }, store))
    ∧ (∀ d, mapGet (createTokenHash t) store = some d → d.expiresAt < now →
        POST createTokenHash env rand now store { password := pw, token := some t } =
          ({ success := false, token := none, valid := none,
             error := some "Token expired", status := 401 },
           mapDelete (createTokenHash t) store)
        ∧ mapGet (createTokenHash t)
            (POST createTokenHash env rand now store { password := pw, token := some t }).2 =
              none
        ∧ ∀ k, k ≠ createTokenHash t →
            mapGet k
              (POST createTokenHash env rand now store { password := pw, token := some t }).2 =
              mapGet k store) := by
  have htr : truthy (some t) = true := truthy_some t ht
  constructor
  · intro hget
    simp [POST, htr, hget]
  · intro d hget hexp
    have hpost : POST createTokenHash env rand now store { password := pw, token := some t } =
        ({ success := false, token := none, valid := none,
           error := some "Token expired", status := 401 },
         mapDelete (createTokenHash t) store) := by
      simp [POST, htr, hget, hexp]
    refine ⟨hpost, ?_, ?_⟩
    · rw [hpost]
      exact mapGet_mapDelete_self _ _
    · intro k hk
      rw [hpost]
      exact mapGet_mapDelete_ne _ _ _ hk

theorem post_bad_token_rejected_witness :
    POST demoHash none [] 0 [] { password := none, token := some "t" } =
      ({ success := false, token := none, valid := none,
         error := some "Invalid token", status := 401 }, []) :=
  (post_bad_token_rejected demoHash none [] 0 [] none "t" (by decide)).1 (by decide)

/-- C4 fails as stated: a request carrying a non-empty wrong password
together with a valid token is not rejected and does mutate the store,
because the endpoint checks the token field first. -/
theorem post_wrong_password_counterexample :
    ("wrong" ≠ "" ∧ "wrong" ≠ envPassword none) ∧
    (POST demoHash none [] 0 [(demoHash "t", ⟨1000, 0⟩)]
        { password := some "wrong", token := some "t" }).1.status = 200 ∧
    (POST demoHash none [] 0 [(demoHash "t", ⟨1000, 0⟩)]
        { password := some "wrong", token := some "t" }).1.success = true ∧
    (POST demoHash none [] 0 [(demoHash "t", ⟨1000, 0⟩)]
        { password := some "wrong", token := some "t" }).2 ≠
      [(demoHash "t", ⟨1000, 0⟩)] := by decide

/-- C4 (amended): for every request whose token field is absent or empty
and whose password field is non-empty and differs from the configured
secret, the endpoint returns the Incorrect-password 401 rejection and
the token store is returned unchanged. -/
theorem post_wrong_password_rejected
    (createTokenHash : String → String) (env : Option String) (rand : List Nat)
    (now : Nat) (store : Store) (body : RequestBody) (p : String)
    (htok : truthy body.token = false)
    (hpw : body.password = some p) (hp : p ≠ "") (hne : p ≠ envPassword env) :
    POST createTokenHash env rand now store body =
      ({ success := false, token := none, valid := none,
         error := some "Incorrect password", status := 401 }, store) := by
  have hpt : truthy (some p) = true := truthy_some p hp
  simp [POST, htok, hpt, hpw, hne]

theorem post_wrong_password_rejected_witness :
    POST demoHash none [] 0 [] { password := some "wrong", token := none } =
      ({ success := false, token := none, valid := none,
         error := some "Incorrect password", status := 401 }, []) :=
  post_wrong_password_rejected demoHash none [] 0 []
    { password := some "wrong", token := none } "wrong" rfl rfl (by decide) (by decide)

/-- C5: every endpoint operation preserves the invariant that each key of
the token store is the digest of some issued plaintext token, the issue
path extending the issued list by exactly the plaintext token it returns
to the caller; the periodic sweep preserves the invariant as well. -/
theorem tokenStore_only_digests
    (createTokenHash : String → String) (env : Option String) (rand : List Nat)
    (now : Nat) (store : Store) (body : RequestBody) (issued : List String)
    (hinv : storeKeysIssued createTokenHash issued store) :
    storeKeysIssued createTokenHash
      (issued ++ (POST createTokenHash env rand now store body).1.token.toList)
      (POST createTokenHash env rand now store body).2
    ∧ storeKeysIssued createTokenHash issued (sweep now store) := by
  constructor
  · by_cases htk : truthy body.token
    · rcases hget : mapGet (createTokenHash (body.token.getD "")) store with _ | d
      · have hpost : POST createTokenHash env rand now store body =
            ({ success := false, token := none, valid := none,
               error := some "Invalid token", status := 401 }, store) := by
          simp [POST, htk, hget]
        rw [hpost]
        show storeKeysIssued createTokenHash (issued ++ []) store
        rw [List.append_nil]
        exact hinv
      · by_cases hexp : d.expiresAt < now
        · have hpost : POST createTokenHash env rand now store body =
              ({ success := false, token := none, valid := none,
                 error := some "Token expired", status := 401 },
               mapDelete (createTokenHash (body.token.getD "")) store) := by
            simp [POST, htk, hget, hexp]
          rw [hpost]
          show storeKeysIssued createTokenHash (issued ++ [])
            (mapDelete (createTokenHash (body.token.getD "")) store)
          rw [List.append_nil]
          intro k v hm
          exact hinv k v (mem_mapDelete _ _ _ hm)
        · have hpost : POST createTokenHash env rand now store body =
              ({ success := true, token := none, valid := some true,
                 error := none, status := 200 },
               mapSet (createTokenHash (body.token.getD ""))
                 { expiresAt := now + expiresIn, createdAt := d.createdAt } store) := by
            simp [POST, htk, hget, hexp]
          rw [hpost]
          show storeKeysIssued createTokenHash (issued ++ [])
            (mapSet (createTokenHash (body.token.getD ""))
              { expiresAt := now + expiresIn, createdAt := d.createdAt } store)
          rw [List.append_nil]
          intro k v hm
          rcases mem_mapSet _ _ _ _ hm with h1 | h1
          · rw [Prod.mk.injEq] at h1
            obtain ⟨t0, ht0, hk⟩ := hinv _ _ (mapGet_mem _ _ _ hget)
            exact ⟨t0, ht0, h1.1.trans hk⟩
          · exact hinv k v h1
    · by_cases hpt : truthy body.password
      · by_cases hne : body.password.getD "" = envPassword env
        · have hpost : POST createTokenHash env rand now store body =
              ({ success := true, token := some (generateToken rand), valid := none,
                 error := none, status := 200 },
               mapSet (createTokenHash (generateToken rand))
                 { expiresAt := now + expiresIn, createdAt := now } store) := by
            simp [POST, htk, hpt, hne]
          rw [hpost]
          show storeKeysIssued createTokenHash (issued ++ [generateToken rand])
            (mapSet (createTokenHash (generateToken rand))
              { expiresAt := now + expiresIn, createdAt := now } store)
          intro k v hm
          rcases mem_mapSet _ _ _ _ hm with h1 | h1
          · rw [Prod.mk.injEq] at h1
            exact ⟨generateToken rand, List.mem_append_right _ (by simp), h1.1⟩
          · obtain ⟨t0, ht0, hk⟩ := hinv k v h1
            exact ⟨t0, List.mem_append_left _ ht0, hk⟩
        · have hpost : POST createTokenHash env rand now store body =
              ({ success := false, token := none, valid := none,
                 error := some "Incorrect password", status := 401 }, store) := by
            simp [POST, htk, hpt, hne]
          rw [hpost]
          show storeKeysIssued createTokenHash (issued ++ []) store
          rw [List.append_nil]
          exact hinv
      · have hpost : POST createTokenHash env rand now store body =
            ({ success := false, token := none, valid := none,
               error := some "Password is required", status := 400 }, store) := by
          simp [POST, htk, hpt]
        rw [hpost]
        show storeKeysIssued createTokenHash (issued ++ []) store
        rw [List.append_nil]
        exact hinv
  · intro k d hmem
    exact hinv k d ((mem_sweep now store (k, d)).mp hmem).1

theorem tokenStore_only_digests_witness :
    storeKeysIssued demoHash
      (["a"] ++ (POST demoHash none [] 3 [(demoHash "a", ⟨9, 0⟩)]
          { password := none, token := some "a" }).1.token.toList)
      (POST demoHash none [] 3 [(demoHash "a", ⟨9, 0⟩)]
          { password := none, token := some "a" }).2
    ∧ storeKeysIssued demoHash ["a"] (sweep 3 [(demoHash "a", ⟨9, 0⟩)]) :=
  tokenStore_only_digests demoHash none [] 3 [(demoHash "a", ⟨9, 0⟩)]
    { password := none, token := some "a" } ["a"]
    (by intro k d hm
        simp at hm
        exact ⟨"a", by simp, by simp [hm.1]⟩)

/-- C6: one execution of the sweep at time now keeps exactly the records
whose expiresAt has not passed: a record is in the swept store iff it was
in the store and is live, and the swept store holds exactly as many
records as the store had live ones. -/
theorem sweep_removes_exactly_expired (now : Nat) (store : Store) :
    (∀ e : String × TokenRecord, e ∈ sweep now store ↔ e ∈ store ∧ now ≤ e.2.expiresAt)
    ∧ (sweep now store).length =
        store.countP (fun e => decide (now ≤ e.2.expiresAt)) :=
  ⟨fun e => mem_sweep now store e, sweep_length now store⟩

/-- C7: a request body with neither a password nor a token field yields
the Password-is-required response with status 400, and the store is
returned unchanged. -/
theorem post_missing_fields_bad_request (createTokenHash : String → String)
    (env : Option String) (rand : List Nat) (now : Nat) (store : Store) :
    POST createTokenHash env rand now store { password := none, token := none } =
      ({ success := false, token := none, valid := none,
         error := some "Password is required", status := 400 }, store) := rfl

/-- C8 fails as stated: the three credential-rejection responses carry
pairwise distinct error descriptions (Incorrect password, Invalid token,
Token expired), so the error text does reveal which check failed. -/
theorem post_error_texts_distinct :
    (POST demoHash none [] 0 [] { password := some "wrong", token := none }).1.error =
        some "Incorrect password"
    ∧ (POST demoHash none [] 0 [] { password := none, token := some "x" }).1.error =
        some "Invalid token"
    ∧ (POST demoHash none [] 10 [(demoHash "x", ⟨5, 0⟩)]
        { password := none, token := some "x" }).1.error = some "Token expired"
    ∧ (POST demoHash none [] 0 [] { password := some "wrong", token := none }).1.error ≠
        (POST demoHash none [] 0 [] { password := none, token := some "x" }).1.error
    ∧ (POST demoHash none [] 0 [] { password := none, token := some "x" }).1.error ≠
        (POST demoHash none [] 10 [(demoHash "x", ⟨5, 0⟩)]
          { password := none, token := some "x" }).1.error
    ∧ (POST demoHash none [] 0 [] { password := some "wrong", token := none }).1.error ≠
        (POST demoHash none [] 10 [(demoHash "x", ⟨5, 0⟩)]
          { password := none, token := some "x" }).1.error := by decide

/-- C8 (amended): every credential-rejected outcome — wrong password,
unknown token, or expired token — carries the same Unauthorized status
401, but the error descriptions are distinct per check: Invalid token,
Token expired, and Incorrect password respectively. -/
theorem post_rejections_share_status
    (createTokenHash : String → String) (env : Option String) (rand : List Nat)
    (now : Nat) (store : Store) (pw : Option String) (t : String) (p : String)
    (ht : t ≠ "") (hp : p ≠ "") (hpne : p ≠ envPassword env) :
    ((mapGet (createTokenHash t) store = none →
       (POST createTokenHash env rand now store { password := pw, token := some t }).1 =
         { success := false, token := none, valid := none,
           error := some "Invalid token", status := 401 })
    ∧ (∀ d, mapGet (createTokenHash t) store = some d → d.expiresAt < now →
       (POST createTokenHash env rand now store { password := pw, token := some t }).1 =
         { success := false, token := none, valid := none,
           error := some "Token expired", status := 401 }))
    ∧ (POST createTokenHash env rand now store { password := some p, token := none }).1 =
        { success := false, token := none, valid := none,
          error := some "Incorrect password", status := 401 } := by
  have htr : truthy (some t) = true := truthy_some t ht
  have hpt : truthy (some p) = true := truthy_some p hp
  refine ⟨⟨?_, ?_⟩, ?_⟩
  · intro hget
    simp [POST, htr, hget]
  · intro d hget hexp
    simp [POST, htr, hget, hexp]
  · have hpe : p.isEmpty = false := by
      cases hs : p.isEmpty
      · rfl
      · exact absurd ((String.isEmpty_iff p).mp hs) hp
    simp [POST, truthy, hpe, hpne]

theorem post_rejections_share_status_witness :
    (POST demoHash none [] 0 [] { password := some "wrong", token := none }).1 =
      { success := false, token := none, valid := none,
        error := some "Incorrect password", status := 401 } :=
  (post_rejections_share_status demoHash none [] 0 [] none "t" "wrong"
    (by decide) (by decide) (by decide)).2

/-- C9: in local-secret mode, submitting the configured secret persists
the sentinel authenticated string when persistence is on, sets the
session authenticated, fires the success callback exactly once, and
returns true; submitting anything else fires the error callback exactly
once, leaves the session unauthenticated with storage untouched, and
returns false. -/
theorem authenticate_local_secret (secret : String) (persistAuth : Bool)
    (p : String) (s : ClientState)
    (hsecret : secret ≠ "") (hunauth : s.isAuthenticated = false) :
    (p = secret →
      authenticateLocal secret persistAuth p s =
        (true, { storage := if persistAuth then some "authenticated" else s.storage,
                 isAuthenticated := true,
                 successCalls := s.successCalls + 1,
                 errorCalls := s.errorCalls }))
    ∧ (p ≠ secret →
      authenticateLocal secret persistAuth p s =
        (false, { storage := s.storage, isAuthenticated := false,
                  successCalls := s.successCalls,
                  errorCalls := s.errorCalls + 1 })) := by
  constructor
  · intro hps
    simp [authenticateLocal, hps]
  · intro hps
    obtain ⟨st, auth, sc, ec⟩ := s
    have ha : auth = false := hunauth
    subst ha
    simp [authenticateLocal, hps]

theorem authenticate_local_secret_witness :
    authenticateLocal "abc" true "abc" ⟨none, false, 0, 0⟩ =
      (true, ⟨some "authenticated", true, 1, 0⟩) :=
  (authenticate_local_secret "abc" true "abc" ⟨none, false, 0, 0⟩ (by decide) rfl).1 rfl

/-- C10: a token field equal to the empty string is falsy, so the request
falls through to the password branch: with no password field the
response is Password-is-required with status 400, never the
Invalid-token rejection, and the store is returned unchanged. -/
theorem post_empty_token_treated_as_absent (createTokenHash : String → String)
    (env : Option String) (rand : List Nat) (now : Nat) (store : Store) :
    POST createTokenHash env rand now store { password := none, token := some "" } =
      ({ success := false, token := none, valid := none,
         error := some "Password is required", status := 400 }, store)
    ∧ (POST createTokenHash env rand now store
        { password := none, token := some "" }).1.error ≠ some "Invalid token" := by
  refine ⟨rfl, ?_⟩
  have he : (POST createTokenHash env rand now store
      { password := none, token := some "" }).1.error = some "Password is required" := rfl
  rw [he]
  decide
